import Mathlib

/-!
Verification of the copilot-ralph core against its specification.

Strings are modelled as `List Char`.  The completion detector is embedded from
`internal/core/promise.go` (both variants present in the source), the session
client from `internal/sdk/session.go`, and the loop engine, retry classifier
and event stream are modelled from the specification where their sources are
not part of the source tree.
-/

namespace Ralph

/-- Whitespace as recognized by Go's `unicode.IsSpace` (Latin-1 range):
space, tab, newline, vertical tab, form feed, carriage return, NEL, NBSP. -/
def isSpaceGo (c : Char) : Bool :=
  c = ' ' || c = '\t' || c = '\n' || c = '\u000B' || c = '\u000C' || c = '\r' ||
    c = '\u0085' || c = '\u00A0'

/-- Go `strings.TrimSpace`: remove leading and trailing whitespace. -/
def trimSpace (l : List Char) : List Char :=
  List.rdropWhile isSpaceGo (List.dropWhile isSpaceGo l)

/-- Go `strings.ToLower`, character-wise. -/
def toLowerStr (l : List Char) : List Char :=
  l.map Char.toLower

/-- Word characters of the regexp class backslash-w: ASCII letters, digits, underscore. -/
def isWordChar (c : Char) : Bool :=
  c.isAlphanum || c = '_'

/-- Whitespace of the regexp class backslash-s: tab, newline, form feed,
carriage return, space. -/
def isRegexSpace (c : Char) : Bool :=
  c = '\t' || c = '\n' || c = '\u000C' || c = '\r' || c = ' '

/-- Embeds `punctuationPattern.ReplaceAllString(s, "")` from promise.go: the pattern
matches every character that is neither a word character nor whitespace, and
replacing the matches with the empty string keeps exactly the word and
whitespace characters. -/
def stripPunct (l : List Char) : List Char :=
  l.filter (fun c => isWordChar c || isRegexSpace c)

/-- Accumulator form of Go `strings.Fields`: the maximal runs of
non-whitespace characters, in order. -/
def fieldsAux (acc : List Char) : List Char → List (List Char)
  | [] => if acc = [] then [] else [acc.reverse]
  | c :: rest =>
    if isSpaceGo c then
      if acc = [] then fieldsAux [] rest else acc.reverse :: fieldsAux [] rest
    else fieldsAux (c :: acc) rest

/-- Go `strings.Fields`. -/
def fieldsGo (l : List Char) : List (List Char) :=
  fieldsAux [] l

/-- Function `normalizeWhitespace` from promise.go: split into fields and join the
fields with single spaces. -/
def normalizeWhitespace (l : List Char) : List Char :=
  (List.intersperse [' '] (fieldsGo l)).flatten

/-- Go `strings.Contains`: `containsStr s sub` is true when `sub` occurs as a
contiguous substring of `s`. -/
def containsStr (s sub : List Char) : Bool :=
  match s with
  | [] => decide (sub = [])
  | c :: rest => List.isPrefixOf sub (c :: rest) || containsStr rest sub

/-- Function `detectPromise` from promise.go, first variant: the search is
case-insensitive, whitespace-trimmed, and falls back to a comparison with
punctuation stripped and whitespace normalized. -/
def detectPromise (text promisePhrase : List Char) : Bool :=
  if promisePhrase = [] then false
  else
    let normalizedText := toLowerStr (trimSpace text)
    let normalizedPhrase := toLowerStr (trimSpace promisePhrase)
    if containsStr normalizedText normalizedPhrase then true
    else
      let textNoPunct := stripPunct normalizedText
      let phraseNoPunct := stripPunct normalizedPhrase
      if phraseNoPunct = [] then false
      else
        containsStr (normalizeWhitespace textNoPunct) (normalizeWhitespace phraseNoPunct)

/-- The delimiter wrapper built by the second `detectPromise` variant in
promise.go via `fmt.Sprintf`. -/
def wrapPromise (p : List Char) : List Char :=
  "<promise>".toList ++ p ++ "</promise>".toList

/-- Function `detectPromise` from promise.go, second variant: strict containment of the
phrase wrapped in the promise delimiters. -/
def detectPromiseMarker (text promisePhrase : List Char) : Bool :=
  if promisePhrase = [] then false
  else containsStr text (wrapPromise promisePhrase)

/-- Type `MessageRole` from internal/sdk/session.go. -/
inductive MessageRole
  | user
  | assistant
deriving DecidableEq

/-- A primitive value of the `map[string]any` tool-parameter mapping. -/
inductive PValue
  | str (s : List Char)
  | int (n : Int)
  | bool (b : Bool)
deriving DecidableEq

/-- Type `ToolCall` from internal/sdk/tools.go. -/
structure ToolCall where
  parameters : List (List Char × PValue)
  id : List Char
  name : List Char
deriving DecidableEq

/-- Type `Message` from internal/sdk/session.go.  Timestamps are abstract ticks. -/
structure Message where
  role : MessageRole
  content : List Char
  toolCalls : List ToolCall
  timestamp : Nat
deriving DecidableEq

/-- Type `Session` from internal/sdk/session.go.  The UUID is an abstract number. -/
structure Session where
  id : Nat
  createdAt : Nat
  history : List Message
deriving DecidableEq

/-- Function `NewSession` from internal/sdk/session.go: fresh id, creation time, empty
history. -/
def newSession (id ts : Nat) : Session :=
  { id := id, createdAt := ts, history := [] }

/-- Function `Session.AddMessage` from internal/sdk/session.go: append one message to
the history. -/
def addMessage (s : Session) (msg : Message) : Session :=
  { s with history := s.history ++ [msg] }

/-- The state of `CopilotClient` as used by internal/sdk/session.go.
`sdkClientInit` records whether the underlying SDK client pointer is non-nil,
and `sdkSession` whether a backend-side session object is held. -/
structure CopilotClient where
  started : Bool
  sdkClientInit : Bool
  model : List Char
  streaming : Bool
  systemMessage : List Char
  systemMessageMode : List Char
  session : Option Session
  sdkSession : Option Unit
deriving DecidableEq

/-- Errors surfaced by session creation. -/
inductive SessionError
  | startFailed
  | notInitialized
  | sdkCreateFailed
deriving DecidableEq

/-- Function `CopilotClient.CreateSession` from internal/sdk/session.go.  The two
external effects are supplied as oracles: `startOk` is the outcome of
`startLocked` (modelled from the spec: the client is auto-started when not yet
started; the start step does not by itself make the SDK client pointer
non-nil), and `sdkCreateOk` the outcome of the backend `CreateSession` call.
`newId` and `ts` stand for the fresh UUID and the current time. -/
def createSession (c : CopilotClient) (startOk sdkCreateOk : Bool) (newId ts : Nat) :
    Except SessionError (CopilotClient × Session) :=
  if !c.started && !startOk then Except.error SessionError.startFailed
  else
    let c1 := if c.started then c else { c with started := true }
    if !c1.sdkClientInit then Except.error SessionError.notInitialized
    else if !sdkCreateOk then Except.error SessionError.sdkCreateFailed
    else
      let s0 := newSession newId ts
      let s1 :=
        if c.systemMessage = [] then s0
        else addMessage s0 { role := MessageRole.user, content := c.systemMessage,
                             toolCalls := [], timestamp := ts }
      Except.ok ({ c1 with session := some s1, sdkSession := some () }, s1)

/-- Function `CopilotClient.DestroySession` from internal/sdk/session.go.  The result
of the backend-side `Destroy` call is discarded by the source (`_ =`), so the
oracle `backendDestroyFails` has no influence on the outcome. -/
def destroySession (c : CopilotClient) (backendDestroyFails : Bool) :
    CopilotClient × Option SessionError :=
  if c.session.isNone && c.sdkSession.isNone then (c, none)
  else
    let c1 := if c.sdkSession.isSome then { c with sdkSession := none } else c
    ({ c1 with session := none }, none)

/-- The event-stream producer state of the loop engine: the closed flag kept
under the engine's lock, and the events delivered so far. -/
structure EventStreamState (E : Type) where
  eventsClosed : Bool
  delivered : List E
deriving DecidableEq

/-- Modelled from the spec: the loop engine's `emit` (engine source not under
src/).  After the closed flag is set, emission attempts are silently dropped
rather than raising an error; otherwise the event is appended to the stream. -/
def emitEvent {E : Type} (s : EventStreamState E) (ev : E) : EventStreamState E :=
  if s.eventsClosed then s
  else { s with delivered := s.delivered ++ [ev] }

/-- Modelled from the spec: the transient-network message patterns of
`isRetryableError` (client source not under src/): abrupt stream termination
markers, connection reset/refused/terminated, unexpected end-of-input, and
timeouts. -/
def retryablePatterns : List (List Char) :=
  ["GOAWAY".toList, "connection reset".toList, "connection refused".toList,
   "connection terminated".toList, "EOF".toList, "timeout".toList]

/-- Modelled from the spec: `isRetryableError` (client source not under src/).
A nil error is not retryable; otherwise the message is retryable exactly when
it contains one of the transient-network patterns. -/
def isRetryableError : Option (List Char) → Bool
  | none => false
  | some msg => retryablePatterns.any (fun pat => containsStr msg pat)

/-- Type `LoopState` from the spec's data model. -/
inductive LoopState
  | idle
  | running
  | complete
  | failed
  | cancelled
  | timedOut
deriving DecidableEq

/-- Type `LoopResult` restricted to the fields the loop-engine claims are about. -/
structure LoopResult where
  state : LoopState
  iterations : Nat
deriving DecidableEq

/-- Type `LoopConfig` from the spec's data model (durations as abstract ticks). -/
structure LoopConfig where
  prompt : List Char
  model : List Char
  maxIterations : Nat
  timeout : Nat
  promisePhrase : List Char
  workingDir : List Char
  systemMessage : List Char

/-- Modelled from the spec: one run of the loop engine's per-iteration
algorithm (engine source not under src/).  `backend i` is the accumulated
response text of iteration `i`, `cancelAt` and `timeoutAt` are the
cancellation and deadline checks at the iteration boundary, and `detect` is
the completion detector.  Iterations are counted from 1; the fuel argument
only ensures termination and is chosen large enough by `runLoop`. -/
def stepLoop (detect : List Char → List Char → Bool) (cfg : LoopConfig)
    (backend : Nat → List Char) (cancelAt timeoutAt : Nat → Bool) :
    Nat → Nat → LoopResult
  | 0, i => { state := LoopState.failed, iterations := i - 1 }
  | fuel + 1, i =>
    if cancelAt i then { state := LoopState.cancelled, iterations := i - 1 }
    else if timeoutAt i then { state := LoopState.timedOut, iterations := i - 1 }
    else if cfg.maxIterations < i then { state := LoopState.failed, iterations := i - 1 }
    else if detect (backend i) cfg.promisePhrase then
      { state := LoopState.complete, iterations := i }
    else if cfg.maxIterations ≤ i then { state := LoopState.failed, iterations := i }
    else stepLoop detect cfg backend cancelAt timeoutAt fuel (i + 1)

/-- Modelled from the spec: `LoopEngine.Start` driving iterations from 1 until
a terminal condition is reached. -/
def runLoop (detect : List Char → List Char → Bool) (cfg : LoopConfig)
    (backend : Nat → List Char) (cancelAt timeoutAt : Nat → Bool) : LoopResult :=
  stepLoop detect cfg backend cancelAt timeoutAt (cfg.maxIterations + 1) 1

theorem containsStr_eq_true {s sub : List Char} :
    containsStr s sub = true ↔ sub <:+: s := by
  induction s with
  | nil => simp [containsStr]
  | cons c rest ih =>
    rw [containsStr, Bool.or_eq_true, ih, List.isPrefixOf_iff_prefix]
    exact ( List.infix_cons_iff).symm

theorem dropWhile_append_of_head_false (p : Char → Bool) (c : Char) (d b : List Char)
    (hc : p c = false) :
    ∀ a : List Char, ∃ a2 : List Char,
      List.dropWhile p (a ++ (c :: d) ++ b) = a2 ++ (c :: d) ++ b := by
  intro a
  induction a with
  | nil =>
    refine ⟨[], ?_⟩
    simp only [List.nil_append, List.cons_append]
    rw [List.dropWhile_cons_of_neg (by simp [hc])]
  | cons x xs ih =>
    simp only [List.cons_append]
    by_cases hx : p x = true
    · obtain ⟨a2, h2⟩ := ih
      refine ⟨a2, ?_⟩
      rw [List.dropWhile_cons_of_pos hx]
      simpa using h2
    · refine ⟨x :: xs, ?_⟩
      rw [List.dropWhile_cons_of_neg hx]
      simp

theorem rdropWhile_append_of_last_false (p : Char → Bool) (q a b : List Char)
    (hq : q ≠ []) (hl : ∀ c, q.getLast? = some c → p c = false) :
    ∃ b2 : List Char, List.rdropWhile p (a ++ q ++ b) = a ++ q ++ b2 := by
  obtain ⟨c, d, hrev⟩ : ∃ c d, q.reverse = c :: d := by
    cases hr : q.reverse with
    | nil => exact absurd (List.reverse_eq_nil_iff.mp hr) hq
    | cons c d => exact ⟨c, d, rfl⟩
  have hc : p c = false := by
    apply hl
    rw [← List.head?_reverse, hrev]
    rfl
  obtain ⟨w, hw⟩ := dropWhile_append_of_head_false p c d a.reverse hc b.reverse
  refine ⟨w.reverse, ?_⟩
  unfold List.rdropWhile
  have hx : (a ++ q ++ b).reverse = b.reverse ++ (c :: d) ++ a.reverse := by
    rw [← hrev]
    simp
  rw [hx, hw, ← hrev]
  simp

theorem trimSpace_within (l : List Char) : trimSpace l <:+: l := by
  have h1 : trimSpace l <+: List.dropWhile isSpaceGo l := List.rdropWhile_prefix _ _
  have h2 : List.dropWhile isSpaceGo l <:+ l := List.dropWhile_suffix _
  exact List.IsInfix.trans h1.isInfix h2.isInfix

theorem trimSpace_head_not_space (l : List Char) (c : Char) (r : List Char)
    (h : trimSpace l = c :: r) : isSpaceGo c = false := by
  have hpre : trimSpace l <+: List.dropWhile isSpaceGo l := List.rdropWhile_prefix _ _
  obtain ⟨w, hw⟩ := hpre
  rw [h] at hw
  have hx : List.dropWhile isSpaceGo l = c :: (r ++ w) := by
    rw [← hw]
    simp
  have hv := List.head?_dropWhile_not isSpaceGo l
  rw [hx] at hv
  exact hv

theorem trimSpace_getLast_not_space (l : List Char) (c : Char)
    (h : (trimSpace l).getLast? = some c) : isSpaceGo c = false := by
  unfold trimSpace List.rdropWhile at h
  rw [List.getLast?_reverse] at h
  have hv := List.head?_dropWhile_not isSpaceGo (List.dropWhile isSpaceGo l).reverse
  rw [h] at hv
  exact hv

theorem trimSpace_keeps_inner (q t : List Char) (hin : q <:+: t)
    (hhead : ∀ c r, q = c :: r → isSpaceGo c = false)
    (hlast : ∀ c, q.getLast? = some c → isSpaceGo c = false) :
    q <:+: trimSpace t := by
  cases hq : q with
  | nil => exact List.nil_infix
  | cons c r =>
    subst hq
    have hc : isSpaceGo c = false := hhead c r rfl
    obtain ⟨a, b, ht⟩ := hin
    obtain ⟨a2, h1⟩ := dropWhile_append_of_head_false isSpaceGo c r b hc a
    obtain ⟨b2, h2⟩ := rdropWhile_append_of_last_false isSpaceGo (c :: r) a2 b (by simp) hlast
    unfold trimSpace
    rw [← ht, h1, h2]
    exact List.infix_append _ _ _

theorem detectPromise_of_inner (a p b : List Char) (hp : p ≠ []) :
    detectPromise (a ++ p ++ b) p = true := by
  have key : containsStr (toLowerStr (trimSpace (a ++ p ++ b)))
      (toLowerStr (trimSpace p)) = true := by
    rw [containsStr_eq_true]
    cases hq : trimSpace p with
    | nil => simp [toLowerStr]
    | cons c r =>
      have h1 : (c :: r) <:+: (a ++ p ++ b) := by
        have h2 : (c :: r) <:+: p := by
          rw [← hq]
          exact trimSpace_within p
        exact List.IsInfix.trans h2 ( List.infix_append _ _ _)
      have h3 : (c :: r) <:+: trimSpace (a ++ p ++ b) := by
        apply trimSpace_keeps_inner _ _ h1
        · intro c2 r2 he
          cases he
          exact trimSpace_head_not_space p c r hq
        · intro c2 hc2
          apply trimSpace_getLast_not_space p c2
          rw [hq]
          exact hc2
      obtain ⟨x, y, hxy⟩ := h3
      refine ⟨toLowerStr x, toLowerStr y, ?_⟩
      rw [← hxy]
      simp [toLowerStr]
  unfold detectPromise
  rw [if_neg hp]
  simp only [key, if_true]

/-- Claim C2: for every text, both variants of the completion detector return
false when the completion phrase is the empty string. -/
theorem detect_empty_phrase_false (t : List Char) :
    detectPromise t [] = false ∧ detectPromiseMarker t [] = false :=
  ⟨rfl, rfl⟩

/-- Claim C1 counterexample: the delimiter variant of `detectPromise` does not
recognize a non-empty phrase occurring in the text with arbitrary surrounding
text but without the promise delimiters. -/
theorem marker_misses_plain_occurrence :
    "DONE".toList ≠ [] ∧
    containsStr ("please mark ".toList ++ "DONE".toList ++ " now".toList)
      "DONE".toList = true ∧
    detectPromiseMarker ("please mark ".toList ++ "DONE".toList ++ " now".toList)
      "DONE".toList = false := by
  refine ⟨by decide, by decide, by decide⟩

/-- Claim C1 (amended): for every non-empty phrase and arbitrary surrounding
text, the normalizing-substring variant of `detectPromise` recognizes the
phrase; the delimiter variant instead recognizes exactly the texts containing
the phrase wrapped in the promise delimiters. -/
theorem detect_inner_and_marker (a p b t : List Char) (hp : p ≠ []) :
    detectPromise (a ++ p ++ b) p = true ∧
    (detectPromiseMarker t p = true ↔ containsStr t (wrapPromise p) = true) := by
  refine ⟨detectPromise_of_inner a p b hp, ?_⟩
  unfold detectPromiseMarker
  rw [if_neg hp]

/-- Witness for the amended claim C1 at concrete inputs. -/
theorem detect_inner_and_marker_witness :
    detectPromise ("all ".toList ++ "done".toList ++ " now".toList) "done".toList = true ∧
    (detectPromiseMarker "<promise>done</promise>".toList "done".toList = true ↔
      containsStr "<promise>done</promise>".toList (wrapPromise "done".toList) = true) :=
  detect_inner_and_marker _ _ _ _ (by decide)

/-- Claim C3: the retryable-error classifier returns true for "unexpected
EOF", false for "authentication failed", and false for a nil error. -/
theorem retryable_classifier_cases :
    isRetryableError (some "unexpected EOF".toList) = true ∧
    isRetryableError (some "authentication failed".toList) = false ∧
    isRetryableError none = false := by
  refine ⟨by decide, by decide, rfl⟩

theorem stepLoop_never_detected (detect : List Char → List Char → Bool)
    (cfg : LoopConfig) (backend : Nat → List Char)
    (hnd : ∀ n, detect (backend n) cfg.promisePhrase = false) :
    ∀ fuel i, 1 ≤ i → i ≤ cfg.maxIterations → cfg.maxIterations - i < fuel →
      stepLoop detect cfg backend (fun _ => false) (fun _ => false) fuel i
        = { state := LoopState.failed, iterations := cfg.maxIterations } := by
  intro fuel
  induction fuel with
  | zero =>
    intro i h1 h2 h3
    omega
  | succ fuel ih =>
    intro i h1 h2 h3
    simp only [stepLoop]
    rw [if_neg (by simp)]
    rw [if_neg (by simp)]
    rw [if_neg (by omega)]
    rw [if_neg (by simp [hnd])]
    by_cases hle : cfg.maxIterations ≤ i
    · rw [if_pos hle]
      have hi : i = cfg.maxIterations := by omega
      rw [hi]
    · rw [if_neg hle]
      exact ih (i + 1) (by omega) (by omega) (by omega)

/-- Claim C4: with positive MaxIterations and a backend whose responses never
contain the completion phrase, a run of the loop engine performs exactly
MaxIterations iterations and terminates in the Failed state. -/
theorem loop_budget_exhausted_failed (detect : List Char → List Char → Bool)
    (cfg : LoopConfig) (backend : Nat → List Char)
    (hN : 1 ≤ cfg.maxIterations)
    (hnd : ∀ n, detect (backend n) cfg.promisePhrase = false) :
    runLoop detect cfg backend (fun _ => false) (fun _ => false)
      = { state := LoopState.failed, iterations := cfg.maxIterations } := by
  unfold runLoop
  exact stepLoop_never_detected detect cfg backend hnd (cfg.maxIterations + 1) 1
    le_rfl hN (by omega)

/-- Witness for claim C4: a backend that never emits the phrase under a
two-iteration budget ends Failed with iteration count 2. -/
theorem loop_budget_exhausted_failed_witness :
    runLoop detectPromise
      { prompt := "Do X".toList, model := "gpt".toList, maxIterations := 2,
        timeout := 60, promisePhrase := "DONE".toList, workingDir := [],
        systemMessage := [] }
      (fun _ => "still working".toList) (fun _ => false) (fun _ => false)
      = { state := LoopState.failed, iterations := 2 } :=
  loop_budget_exhausted_failed detectPromise _ _ (by decide) (fun _ => by decide)

/-- Claim C5: `CreateSession` fails when the underlying SDK client is not
initialized; a not-yet-started client is started automatically first, so an
un-started but initializable client succeeds rather than failing. -/
theorem createSession_uninitialized_and_autostart (c : CopilotClient)
    (startOk sdkOk : Bool) (newId ts : Nat) :
    (c.sdkClientInit = false →
      ∃ e, createSession c startOk sdkOk newId ts = Except.error e) ∧
    (c.started = false → c.sdkClientInit = true → startOk = true → sdkOk = true →
      ∃ c2 s, createSession c startOk sdkOk newId ts = Except.ok (c2, s) ∧
        c2.started = true) := by
  constructor
  · intro hinit
    simp only [createSession]
    by_cases hst : c.started
    · rw [if_neg (by simp [hst])]
      rw [if_pos (by simp [hst, hinit])]
      exact ⟨SessionError.notInitialized, rfl⟩
    · by_cases hso : startOk
      · rw [if_neg (by simp [hso])]
        rw [if_pos (by simp [hst, hinit])]
        exact ⟨SessionError.notInitialized, rfl⟩
      · rw [if_pos (by simp [hst, hso])]
        exact ⟨SessionError.startFailed, rfl⟩
  · intro hst hinit hso hsdk
    subst hso hsdk
    simp only [createSession]
    rw [if_neg (by simp)]
    rw [if_neg (by simp [hst, hinit])]
    rw [if_neg (by simp)]
    refine ⟨_, _, rfl, ?_⟩
    simp [hst]

/-- Witness for claim C5: an initialized-but-unstarted client succeeds, a
client whose SDK pointer is nil fails. -/
theorem createSession_uninitialized_and_autostart_witness :
    (∃ e, createSession
        { started := true, sdkClientInit := false, model := [], streaming := true,
          systemMessage := [], systemMessageMode := [], session := none,
          sdkSession := none } true true 1 0 = Except.error e) ∧
    (∃ c2 s, createSession
        { started := false, sdkClientInit := true, model := [], streaming := true,
          systemMessage := [], systemMessageMode := [], session := none,
          sdkSession := none } true true 1 0 = Except.ok (c2, s) ∧
        c2.started = true) :=
  ⟨(createSession_uninitialized_and_autostart _ true true 1 0).1 rfl,
   (createSession_uninitialized_and_autostart _ true true 1 0).2 rfl rfl rfl rfl⟩

/-- Claim C6: a successful `CreateSession` records exactly one initial history
entry whose content is the configured system message, and an empty history
when no system message is configured. -/
theorem createSession_initial_history (c : CopilotClient) (startOk sdkOk : Bool)
    (newId ts : Nat) (c2 : CopilotClient) (s : Session)
    (hok : createSession c startOk sdkOk newId ts = Except.ok (c2, s)) :
    s.history = if c.systemMessage = [] then []
      else [{ role := MessageRole.user, content := c.systemMessage,
              toolCalls := [], timestamp := ts }] := by
  simp only [createSession] at hok
  by_cases h1 : (!c.started && !startOk) = true
  · rw [if_pos h1] at hok
    cases hok
  · rw [if_neg h1] at hok
    by_cases h2 : (!(if c.started then c else { c with started := true }).sdkClientInit) = true
    · rw [if_pos h2] at hok
      cases hok
    · rw [if_neg h2] at hok
      by_cases h3 : (!sdkOk) = true
      · rw [if_pos h3] at hok
        cases hok
      · rw [if_neg h3] at hok
        injection hok with hpair
        injection hpair with hc2 hs
        subst hs
        by_cases h4 : c.systemMessage = [] <;> simp [h4, newSession, addMessage]

/-- Witness for claim C6: a client configured with a system message yields a
one-entry history holding that message. -/
theorem createSession_initial_history_witness :
    ({ id := 7, createdAt := 3,
       history := [{ role := MessageRole.user, content := "You are Ralph".toList,
                     toolCalls := [], timestamp := 3 }] } : Session).history
      = if "You are Ralph".toList = [] then []
        else [{ role := MessageRole.user, content := "You are Ralph".toList,
                toolCalls := [], timestamp := 3 }] :=
  createSession_initial_history
    { started := true, sdkClientInit := true, model := [], streaming := true,
      systemMessage := "You are Ralph".toList, systemMessageMode := "append".toList,
      session := none, sdkSession := none } true true 7 3
    { started := true, sdkClientInit := true, model := [], streaming := true,
      systemMessage := "You are Ralph".toList, systemMessageMode := "append".toList,
      session := some
        ({ id := 7, createdAt := 3,
           history := [{ role := MessageRole.user,
                         content := "You are Ralph".toList,
                         toolCalls := [], timestamp := 3 }] } : Session),
      sdkSession := some () }
    { id := 7, createdAt := 3,
      history := [{ role := MessageRole.user, content := "You are Ralph".toList,
                    toolCalls := [], timestamp := 3 }] } rfl

/-- Claim C7: destroying when no session exists is a no-op that returns no
error and leaves the client state unchanged. -/
theorem destroySession_noop_when_absent (c : CopilotClient) (bFail : Bool)
    (h1 : c.session = none) (h2 : c.sdkSession = none) :
    destroySession c bFail = (c, none) := by
  unfold destroySession
  rw [if_pos (by simp [h1, h2])]

/-- Witness for claim C7 at a concrete sessionless client, even with a failing
backend-side destroy. -/
theorem destroySession_noop_when_absent_witness :
    destroySession
      { started := true, sdkClientInit := true, model := [], streaming := true,
        systemMessage := [], systemMessageMode := [], session := none,
        sdkSession := none } true
      = ({ started := true, sdkClientInit := true, model := [], streaming := true,
           systemMessage := [], systemMessageMode := [], session := none,
           sdkSession := none }, none) :=
  destroySession_noop_when_absent _ true rfl rfl

/-- Claim C8: after the closed flag is set, an emission attempt returns
normally and the event is not delivered: the stream state is unchanged. -/
theorem emit_after_close_dropped {E : Type} (s : EventStreamState E) (ev : E)
    (h : s.eventsClosed = true) : emitEvent s ev = s := by
  unfold emitEvent
  rw [if_pos h]

/-- Witness for claim C8 on a concrete closed stream. -/
theorem emit_after_close_dropped_witness :
    emitEvent ({ eventsClosed := true, delivered := [] } : EventStreamState Nat) 0
      = { eventsClosed := true, delivered := [] } :=
  emit_after_close_dropped _ 0 rfl

/-- Claim C9: `AddMessage` is append-only: the history is extended by exactly
one element equal to the given message, and every previously stored element
keeps its value and its position. -/
theorem addMessage_append_only (s : Session) (msg : Message) :
    (addMessage s msg).history = s.history ++ [msg] ∧
    (addMessage s msg).history.length = s.history.length + 1 ∧
    ∀ i : Fin s.history.length,
      (addMessage s msg).history[i.val]? = s.history[i.val]? := by
  refine ⟨rfl, by simp [addMessage], fun i => ?_⟩
  simp [addMessage, List.getElem?_append_left i.isLt]

/-- Claim C10: `DestroySession` returns nil in every state, swallowing any
backend-side destroy failure, and afterwards both the local session reference
and the SDK session reference are nil. -/
theorem destroySession_total_nil (c : CopilotClient) (bFail : Bool) :
    (destroySession c bFail).2 = none ∧
    (destroySession c bFail).1.session = none ∧
    (destroySession c bFail).1.sdkSession = none := by
  unfold destroySession
  by_cases h : (c.session.isNone && c.sdkSession.isNone) = true
  · rw [if_pos h]
    simp only [Bool.and_eq_true, Option.isNone_iff_eq_none] at h
    exact ⟨rfl, h.1, h.2⟩
  · rw [if_neg h]
    by_cases h2 : c.sdkSession.isSome = true
    · simp [h2]
    · cases hcs : c.sdkSession with
      | none => simp [h2, hcs]
      | some v =>
        rw [hcs] at h2
        simp at h2

end Ralph
